import Mathlib

/-!
# mruby-jvm: `src/java_support.c`

A shallow embedding of the JVM launcher of `java_support.c` and the proofs
of its specified properties.

Modelling conventions.

* A C function that talks to the outside world is a function into `Res`:
  the list of externally visible calls it made (`Event`s, in program order)
  together with either its return value or the reason it did not return
  (`Stop`): `mrb_raise` unwinds to the host, `execv` replaces the process
  image, or the C program has no defined behaviour from that point on.
* Everything that is not code of `java_support.c` (the mruby API, libc, the
  dynamic loader, JNI, the Windows API, constants of system headers) is a
  field of `World`; theorems quantify over every `World`.
* The three `#if` families of the file are the three values of `Platform`.
* C `int` values are `Int`.  Argument counts are bounded by the size of the
  mruby call stack, so no `int` computation of the file leaves the 32-bit
  range on the inputs the theorems speak about.
* A `const char *` is a `CharPtr`; a cell of an array obtained from `malloc`
  or declared without initialiser is `none` until it is first written.
-/

namespace JavaSupport

/-! ## C values -/

/-- A `const char *`. -/
inductive CharPtr
  /-- The null pointer. -/
  | null
  /-- A pointer to a live NUL-terminated string with the given contents. -/
  | str (s : String)
  /-- A pointer into an automatic array whose function has returned. -/
  | dead
  deriving DecidableEq, Repr

/-- One cell of a `char **` block: `none` while it has never been written. -/
abbrev Slot := Option CharPtr

/-- The values of the host that can appear in an argument list. -/
inductive mrb_value
  | str (s : String)
  | fixnum (n : Int)
  | nil_value
  | true_value
  | false_value
  deriving DecidableEq, Repr

/-- The exception classes the file raises. -/
inductive ErrClass
  | E_ARGUMENT_ERROR
  | E_RUNTIME_ERROR
  | E_TYPE_ERROR
  deriving DecidableEq, Repr

/-- The ways in which a C call does not return to its caller. -/
inductive Stop
  /-- Unwinding by `mrb_raise(mrb, cls, msg)`. -/
  | raise (cls : ErrClass) (msg : String)
  /-- A successful `execv`: the process image is replaced. -/
  | replaced
  /-- The C standard assigns no behaviour (the string says why). -/
  | undefined (why : String)
  deriving DecidableEq, Repr

/-- The `#if` families of the file. -/
inductive Platform
  /-- `_WIN32 || _WIN64`. -/
  | windows
  /-- `__APPLE__`. -/
  | apple
  /-- Everything else (`readlink`, `dlopen`, `execv`). -/
  | other
  deriving DecidableEq, Repr

/-- One entry of the `JavaVMOption` array. -/
structure JavaVMOption where
  optionString : Slot
  extraInfo : Nat
  deriving DecidableEq, Repr

/-- The externally visible calls, in the order the program makes them. -/
inductive Event
  | fflush (stream : String)
  | mrb_get_args
  /-- The call `mrb_string_value_cstr(mrb, &argv[index])`. -/
  | mrb_string_value_cstr (index : Int)
  /-- The read `mrb_fixnum(argv[index])`. -/
  | mrb_fixnum (index : Int)
  | signal (signo : String) (handler : String)
  | execv (path : Slot) (argv : List Slot)
  | CreateProcess (cmd : String)
  | disable_folder_virtualization
  | ResumeThread
  | WaitForSingleObject
  | CloseHandle (h : String)
  | LoadLibrary (path : CharPtr)
  | GetProcAddress (sym : String)
  | dlopen (path : CharPtr)
  | dlsym (sym : String)
  /-- The call `createJavaVM(&jvm, &env, &jvm_init_args)`; `resolved` says
  whether the pointer called is non-null. -/
  | createJavaVM (resolved : Bool) (nOptions : Int) (options : List (Option JavaVMOption))
  | FindClass (name : CharPtr)
  | GetStaticMethodID (cls : Nat) (name : String) (sig : String)
  | NewObjectArray (len : Int)
  | NewStringUTF (s : CharPtr)
  | SetObjectArrayElement (i : Int) (s : Nat)
  | CallStaticVoidMethod (cls : Nat) (method : Nat) (args : List (Option Nat))
  | RegOpenKeyEx (key : String)
  | RegQueryValueEx (key : String) (value : String)
  | RegCloseKey
  | printf (s : String)
  | popen (cmd : String)
  | fgets
  | pclose
  | readlink (path : String) (bufsiz : Int)
  | mrb_str_new_cstr
  deriving DecidableEq, Repr

/-! ## The result of running a C function -/

/-- The calls a function made and how it ended. -/
structure Res (α : Type) where
  trace : List Event
  out : Except Stop α

namespace Res

/-- Return normally without doing anything. -/
def ret {α : Type} (a : α) : Res α := ⟨[], .ok a⟩

/-- Run `x`, then `f` on its value; the calls are concatenated, and a `Stop`
ends the sequence. -/
def andThen {α β : Type} (x : Res α) (f : α → Res β) : Res β :=
  match x.out with
  | .ok a => ⟨x.trace ++ (f a).trace, (f a).out⟩
  | .error e => ⟨x.trace, .error e⟩

instance : Monad Res where
  pure := ret
  bind := andThen

end Res

/-- Record one call. -/
def emit (e : Event) : Res Unit := ⟨[e], .ok ()⟩

/-- Stop: `mrb_raise`, `execv`, or undefined behaviour. -/
def stop {α : Type} (s : Stop) : Res α := ⟨[], .error s⟩

/-- The statement `mrb_raise(mrb, cls, msg)`. -/
def mrb_raise {α : Type} (cls : ErrClass) (msg : String) : Res α := stop (.raise cls msg)

/-- Read `a[i]` of a block of `a.length` cells. -/
def load {α : Type} (a : List α) (i : Int) : Res α :=
  if 0 ≤ i then
    match a[i.toNat]? with
    | some x => pure x
    | none => stop (.undefined "read past the end of an array")
  else stop (.undefined "read before the start of an array")

/-- The assignment `a[i] = x` into a block of `a.length` cells. -/
def store {α : Type} (a : List α) (i : Int) (x : α) : Res (List α) :=
  if 0 ≤ i then
    if i.toNat < a.length then pure (a.set i.toNat x)
    else stop (.undefined "write past the end of an array")
  else stop (.undefined "write before the start of an array")

/-- The loop `for (i = i0; ...; i++) body`, run for `n` iterations. -/
def forLoop {σ : Type} (body : Int → σ → Res σ) : Nat → Int → σ → Res σ
  | 0, _, s => pure s
  | n + 1, i, s => body i s >>= fun s1 => forLoop body n (i + 1) s1

/-- A block of `count` pointers from `malloc(count * sizeof(void*))`, its
cells not yet written.  A non-positive `count` gives no writable cell. -/
def malloc (count : Int) : List Slot := List.replicate count.toNat none

/-! ## The outside world -/

/-- Everything the file calls but does not define. -/
structure World where
  platform : Platform
  /-- The constant `PATH_MAX` of `<limits.h>`. -/
  PATH_MAX : Nat
  /-- The mruby function `mrb_string_value_cstr`: the C string of a value, or
  the exception it raises. -/
  mrb_string_value_cstr : mrb_value → Except Stop String
  /-- The mruby accessor `mrb_fixnum`, converted to `int`. -/
  mrb_fixnum : mrb_value → Int
  /-- Whether `execv(path, argv)` replaces the process image; when it does
  not, it returns -1. -/
  execv : Slot → List Slot → Bool
  /-- The macro `WIFEXITED` of `<sys/wait.h>`. -/
  WIFEXITED : Int → Bool
  /-- The macro `WEXITSTATUS` of `<sys/wait.h>`. -/
  WEXITSTATUS : Int → Int
  /-- Whether `CreateProcess` succeeds on a command line. -/
  CreateProcess : String → Bool
  /-- The library handle of `dlopen` / `LoadLibrary`, `none` for NULL. -/
  dlopen : CharPtr → Option Nat
  /-- Whether `dlsym` / `GetProcAddress` finds the symbol in the handle. -/
  dlsym : Option Nat → String → Bool
  /-- The status `JNI_CreateJavaVM` returns for the options it is given. -/
  JNI_CreateJavaVM : Int → List (Option JavaVMOption) → Int
  /-- The JNI function `FindClass`, `none` for NULL. -/
  FindClass : CharPtr → Option Nat
  /-- The JNI function `GetStaticMethodID`, `none` for NULL. -/
  GetStaticMethodID : Nat → String → String → Option Nat
  /-- The JNI function `NewStringUTF`, `none` for NULL. -/
  NewStringUTF : CharPtr → Option Nat
  /-- The target of a symbolic link, `none` when `readlink` fails. -/
  readlink : String → Option (List Char)
  /-- The output of a command run by `popen`, `none` when it cannot run. -/
  popen : String → Option (List Char)
  /-- Whether `RegOpenKeyEx` opens a key of `HKEY_LOCAL_MACHINE`. -/
  RegOpenKeyEx : String → Bool
  /-- Whether `RegQueryValueEx` yields a `REG_SZ` value for the key. -/
  RegQueryValueEx : String → String → Bool

/-! ## `process_mrb_args` (lines 59-68) -/

/-- The expression `mrb_string_value_cstr(mrb, &argv[i])` on an argument
list of `argv.length` values. -/
def argv_cstr (w : World) (argv : List mrb_value) (i : Int) : Res CharPtr := do
  let v ← load argv i
  emit (.mrb_string_value_cstr i)
  match w.mrb_string_value_cstr v with
  | .ok s => pure (.str s)
  | .error e => stop e

/-- `process_mrb_args(mrb, argv, offset, count)`. -/
def process_mrb_args (w : World) (argv : List mrb_value) (offset count : Int) :
    Res (List Slot) :=
  forLoop (fun i opts => do
      let p ← argv_cstr w argv (i + offset)
      store opts i (some p))
    count.toNat 0 (malloc count)

/-! ## `mrb_find_native_java` (lines 95-156) -/

/-- `get_string_from_registry(HKEY_LOCAL_MACHINE, keyName, valueName)`.  On
success the function returns its own automatic array `val`. -/
def get_string_from_registry (w : World) (keyName valueName : String) : Res CharPtr := do
  emit (.RegOpenKeyEx keyName)
  if w.RegOpenKeyEx keyName then
    emit (.RegQueryValueEx keyName valueName)
    if w.RegQueryValueEx keyName valueName then
      emit .RegCloseKey
      pure .dead
    else
      emit (.printf "RegQueryValueEx() failed.\n")
      emit .RegCloseKey
      pure .null
  else
    emit (.printf "RegOpenKeyEx() failed.\n")
    pure .null

/-- `get_java_home_from_registry(java_key)`. -/
def get_java_home_from_registry (w : World) (java_key : String) : Res CharPtr := do
  let version ← get_string_from_registry w java_key "CurrentVersion"
  match version with
  | .null => pure .null
  | .dead => stop (.undefined "strlen of a pointer to an expired array")
  | .str v => get_string_from_registry w (java_key ++ "\\" ++ v) "JavaHome"

/-- The mruby function `mrb_str_new_cstr` on a pointer: NULL gives the empty
string. -/
def mrb_str_new_cstr (p : CharPtr) : Res mrb_value := do
  emit .mrb_str_new_cstr
  match p with
  | .null => pure (.str "")
  | .str s => pure (.str s)
  | .dead => stop (.undefined "strlen of a pointer to an expired array")

/-- The characters of a `char` array up to its first NUL, as `strlen` reads
them; a cell is `none` while it has never been written. -/
def read_cstr : List (Option Char) → Res (List Char)
  | [] => stop (.undefined "read past the end of an array")
  | none :: _ => stop (.undefined "read of an uninitialised char")
  | some c :: rest =>
    if c = Char.ofNat 0 then pure []
    else do
      let r ← read_cstr rest
      pure (c :: r)

/-- `mrb_str_new_cstr(mrb, buff)` on a `char` array. -/
def mrb_str_new_cstr_buff (buff : List (Option Char)) : Res mrb_value := do
  emit .mrb_str_new_cstr
  let cs ← read_cstr buff
  pure (.str (String.mk cs))

/-- The bytes `data` copied to the start of `buff`. -/
def write_bytes (buff : List (Option Char)) (data : List Char) : List (Option Char) :=
  data.map some ++ buff.drop data.length

/-- The characters one `fgets(buff, n, fp)` takes from the stream: at most
`n - 1`, stopping after a newline. -/
def fgets_line : Nat → List Char → List Char
  | _, [] => []
  | n, c :: cs =>
    if n ≤ 1 then []
    else if c = Char.ofNat 10 then [c]
    else c :: fgets_line (n - 1) cs

/-- `mrb_find_native_java(mrb, obj)`. -/
def mrb_find_native_java (w : World) : Res mrb_value := do
  let buff : List (Option Char) := List.replicate w.PATH_MAX none
  match w.platform with
  | .windows =>
    let java_home ← get_java_home_from_registry w "Software\\JavaSoft\\Java Development Kit"
    if java_home = .null then
      let java_home ← get_java_home_from_registry w "Software\\JavaSoft\\Java Runtime Environment"
      mrb_str_new_cstr java_home
    else
      mrb_str_new_cstr java_home
  | .apple =>
    emit (.popen "/usr/libexec/java_home")
    match w.popen "/usr/libexec/java_home" with
    | none => mrb_raise .E_RUNTIME_ERROR "Failed to run `/usr/libexec/java_home'"
    | some output =>
      emit .fgets
      let line := fgets_line (w.PATH_MAX - 1) output
      emit .pclose
      if output = [] then mrb_str_new_cstr .null
      else mrb_str_new_cstr_buff (write_bytes buff (line ++ [Char.ofNat 0]))
  | .other =>
    emit (.readlink "/usr/bin/java" ((w.PATH_MAX : Int) - 1))
    match w.readlink "/usr/bin/java" with
    | none =>
      let len : Int := -1
      let buff ← store buff len (some (Char.ofNat 0))
      mrb_str_new_cstr_buff buff
    | some target =>
      let written := target.take (w.PATH_MAX - 1)
      let len : Int := written.length
      let buff ← store (write_bytes buff written) len (some (Char.ofNat 0))
      mrb_str_new_cstr_buff buff

/-! ## `mrb_p_exec` (lines 158-201) -/

/-- The value of a pointer cell that is about to be dereferenced. -/
def deref (p : Slot) : Res String :=
  match p with
  | some (.str s) => pure s
  | some .null => stop (.undefined "dereference of a null pointer")
  | some .dead => stop (.undefined "dereference of a pointer to an expired array")
  | none => stop (.undefined "dereference of an uninitialised pointer")

/-- `strcat(cmd, p)` into `char cmd[32*1024]`. -/
def strcat_cmd (cmd : String) (p : Slot) : Res String := do
  let s ← deref p
  if cmd.length + s.length < 32 * 1024 then pure (cmd ++ s)
  else stop (.undefined "write past the end of an array")

/-- `mrb_p_exec(pargv, pargc)`. -/
def mrb_p_exec (w : World) (pargv : List Slot) (pargc : Int) : Res mrb_value := do
  emit (.fflush "stdout")
  emit (.fflush "stderr")
  match w.platform with
  | .windows =>
    let cmd ← forLoop (fun i cmd => do
        let p ← load pargv i
        let cmd ← strcat_cmd cmd p
        strcat_cmd cmd (some (.str " ")))
      (pargc - 1).toNat 0 ""
    emit (.CreateProcess cmd)
    if w.CreateProcess cmd then
      emit .disable_folder_virtualization
      emit .ResumeThread
      emit .WaitForSingleObject
      emit (.CloseHandle "hProcess")
      emit (.CloseHandle "hThread")
      pure .true_value
    else
      pure .false_value
  | _ =>
    emit (.signal "SIGCHLD" "SIG_DFL")
    let path ← load pargv 0
    emit (.execv path pargv)
    if w.execv path pargv then stop .replaced
    else
      let ret : Int := -1
      emit (.signal "SIGCHLD" "chfunc")
      if w.WIFEXITED ret && w.WEXITSTATUS ret == 0 then pure .true_value
      else pure .false_value

/-! ## `launch_jvm_out_of_proc` (lines 203-224) -/

/-- Lines 209-221 of `launch_jvm_out_of_proc`: the block `pargv`. -/
def launch_jvm_out_of_proc.pargv (java_exe java_main_class : CharPtr)
    (java_opts : List Slot) (java_optsc : Int) (prgm_opts : List Slot) (prgm_optsc : Int) :
    Res (List Slot) := do
  let pargvc := java_optsc + prgm_optsc + 3
  let pargv := malloc pargvc
  let pargv ← store pargv 0 (some java_exe)
  let pargv ← forLoop (fun i pargv => do
      let p ← load java_opts i
      store pargv (i + 1) p)
    java_optsc.toNat 0 pargv
  let pargv ← if java_main_class ≠ .null then store pargv (java_optsc + 1) (some java_main_class)
    else pure pargv
  let pargv ← forLoop (fun i pargv => do
      let p ← load prgm_opts i
      store pargv (i + java_optsc + 2) p)
    prgm_optsc.toNat 0 pargv
  store pargv (pargvc - 1) (some .null)

/-- `launch_jvm_out_of_proc(mrb, java_exe, java_main_class, java_opts,
java_optsc, prgm_opts, prgm_optsc)`; the value of `mrb_p_exec` is dropped. -/
def launch_jvm_out_of_proc (w : World) (java_exe java_main_class : CharPtr)
    (java_opts : List Slot) (java_optsc : Int) (prgm_opts : List Slot) (prgm_optsc : Int) :
    Res Unit := do
  let pargv ← launch_jvm_out_of_proc.pargv java_exe java_main_class java_opts java_optsc
    prgm_opts prgm_optsc
  let _ ← mrb_p_exec w pargv (java_optsc + prgm_optsc + 3)
  pure ()

/-! ## `launch_jvm_in_proc` (lines 226-292) -/

/-- The test `strcmp(lit, p) == 0`. -/
def strcmp_eq0 (lit : String) (p : Slot) : Res Bool := do
  let s ← deref p
  pure (decide (lit = s))

/-- Lines 236-244: the loop that fills `jvm_opts` and rejects the launcher
flags. -/
def launch_jvm_in_proc.jvm_opts (java_opts : List Slot) (java_optsc : Int) :
    Res (List (Option JavaVMOption)) :=
  forLoop (fun i jvm_opts => do
      let p ← load java_opts i
      let jvm_opts ← store jvm_opts i (some { optionString := p, extraInfo := 0 })
      if ← strcmp_eq0 "-client" p then
        mrb_raise .E_ARGUMENT_ERROR "-client is not a valid option"
      else if ← strcmp_eq0 "-server" p then
        mrb_raise .E_ARGUMENT_ERROR "-server is not a valid option"
      else pure jvm_opts)
    java_optsc.toNat 0 (List.replicate java_optsc.toNat none)

/-- Lines 251-264: load the library and look up `JNI_CreateJavaVM`; the
result says whether `createJavaVM` is non-null. -/
def launch_jvm_in_proc.resolve (w : World) (java_dl jli_dl : CharPtr) : Res Bool := do
  match w.platform with
  | .windows =>
    emit (.LoadLibrary java_dl)
    let jvmdll := w.dlopen java_dl
    emit (.GetProcAddress "JNI_CreateJavaVM")
    pure (w.dlsym jvmdll "JNI_CreateJavaVM")
  | .apple =>
    emit (.dlopen jli_dl)
    emit (.dlopen java_dl)
    let libjvm := w.dlopen java_dl
    emit (.dlsym "JNI_CreateJavaVM")
    pure (w.dlsym libjvm "JNI_CreateJavaVM")
  | .other =>
    emit (.dlopen java_dl)
    let libjvm := w.dlopen java_dl
    emit (.dlsym "JNI_CreateJavaVM")
    pure (w.dlsym libjvm "JNI_CreateJavaVM")

/-- Lines 270-291: find the class and its `main`, build the argument array
and call `main`. -/
def launch_jvm_in_proc.run_main (w : World) (java_main_class : CharPtr)
    (prgm_opts : List Slot) (prgm_optsc : Int) : Res Unit := do
  emit (.FindClass java_main_class)
  match w.FindClass java_main_class with
  | none =>
    match java_main_class with
    | .str name => mrb_raise .E_ARGUMENT_ERROR name
    | _ => stop (.undefined "mrb_raise with an invalid message pointer")
  | some main_class =>
    emit (.GetStaticMethodID main_class "main" "([Ljava/lang/String;)V")
    match w.GetStaticMethodID main_class "main" "([Ljava/lang/String;)V" with
    | none => mrb_raise .E_ARGUMENT_ERROR "Cannot get main method."
    | some main_method =>
      emit (.FindClass (.str "java/lang/String"))
      emit (.NewObjectArray prgm_optsc)
      let main_args ← forLoop (fun i (main_args : List (Option Nat)) => do
          let p ← load prgm_opts i
          match p with
          | none => stop (.undefined "use of an uninitialised pointer")
          | some q =>
            emit (.NewStringUTF q)
            match w.NewStringUTF q with
            | none => mrb_raise .E_ARGUMENT_ERROR "NewStringUTF() failed"
            | some j_string_arg =>
              emit (.SetObjectArrayElement i j_string_arg)
              pure (main_args.set i.toNat (some j_string_arg)))
        prgm_optsc.toNat 0 (List.replicate prgm_optsc.toNat none)
      emit (.CallStaticVoidMethod main_class main_method main_args)

/-- `launch_jvm_in_proc(mrb, java_dl, jli_dl, java_main_class, java_opts,
java_optsc, prgm_opts, prgm_optsc)`.  The pointer `createJavaVM` is called
without a test for NULL. -/
def launch_jvm_in_proc (w : World) (java_dl jli_dl java_main_class : CharPtr)
    (java_opts : List Slot) (java_optsc : Int) (prgm_opts : List Slot) (prgm_optsc : Int) :
    Res Unit := do
  let jvm_opts ← launch_jvm_in_proc.jvm_opts java_opts java_optsc
  let createJavaVM ← launch_jvm_in_proc.resolve w java_dl jli_dl
  emit (.createJavaVM createJavaVM java_optsc jvm_opts)
  if createJavaVM then
    if w.JNI_CreateJavaVM java_optsc jvm_opts < 0 then
      mrb_raise .E_RUNTIME_ERROR "JVM creation failed"
    else
      launch_jvm_in_proc.run_main w java_main_class prgm_opts prgm_optsc
  else
    stop (.undefined "call through a null function pointer")

/-! ## `mrb_launch_jvm` and the entry points (lines 294-339) -/

/-- The local variables of `mrb_launch_jvm` after line 318. -/
structure Locals where
  java_exe : CharPtr
  java_dl : CharPtr
  jli_dl : CharPtr
  java_main_class : CharPtr
  java_optsc : Int
  prgm_optsc : Int
  java_opts : List Slot
  prgm_opts : List Slot
  deriving DecidableEq, Repr

/-- Lines 297-318 of `mrb_launch_jvm`: the argument check and the
marshalling of the argument list `argv` (of `argc = argv.length` values). -/
def mrb_launch_jvm.locals (w : World) (argv : List mrb_value) : Res Locals := do
  emit (.fflush "stdout")
  emit (.fflush "stderr")
  emit .mrb_get_args
  let argc : Int := argv.length
  if argc < 6 then
    mrb_raise .E_ARGUMENT_ERROR "wrong number of arguments"
  else
    let java_exe ← argv_cstr w argv 0
    let java_dl ← argv_cstr w argv 1
    let jli_dl ← argv_cstr w argv 2
    let java_main_class ← argv_cstr w argv 3
    let v ← load argv 4
    emit (.mrb_fixnum 4)
    let java_optsc : Int := w.mrb_fixnum v
    let java_opts_start : Int := 5
    let prgm_opts_start : Int := java_opts_start + java_optsc
    let prgm_optsc : Int := argc - prgm_opts_start
    let java_opts ← process_mrb_args w argv java_opts_start java_optsc
    let prgm_opts ← process_mrb_args w argv prgm_opts_start prgm_optsc
    pure { java_exe, java_dl, jli_dl, java_main_class, java_optsc, prgm_optsc,
           java_opts, prgm_opts }

/-- `mrb_launch_jvm(mrb, in_proc, obj)` on the argument list `argv`. -/
def mrb_launch_jvm (w : World) (in_proc : Int) (argv : List mrb_value) : Res mrb_value := do
  let l ← mrb_launch_jvm.locals w argv
  if in_proc ≠ 0 then
    launch_jvm_out_of_proc w l.java_exe l.java_main_class l.java_opts l.java_optsc
      l.prgm_opts l.prgm_optsc
  else
    launch_jvm_in_proc w l.java_dl l.jli_dl l.java_main_class l.java_opts l.java_optsc
      l.prgm_opts l.prgm_optsc
  pure .true_value

/-- `mrb_java_support_exec`, the method `_exec_java_`. -/
def mrb_java_support_exec (w : World) (argv : List mrb_value) : Res mrb_value :=
  mrb_launch_jvm w 0 argv

/-- `mrb_java_support_system`, the method `_system_java_`. -/
def mrb_java_support_system (w : World) (argv : List mrb_value) : Res mrb_value :=
  mrb_launch_jvm w 1 argv

/-! ## Vocabulary of the statements -/

/-- The call event of marshalling position `p` of the argument list. -/
def marshal_event (p : Nat) : Event := .mrb_string_value_cstr (p : Int)

/-- The string carried by a host value (the empty string for a value that is
not a string). -/
def content : mrb_value → String
  | .str s => s
  | _ => ""

/-- The calls that marshal a value of the argument list. -/
def Event.marshals : Event → Bool
  | .mrb_string_value_cstr _ => true
  | .mrb_fixnum _ => true
  | _ => false

/-- The calls of the out-of-process launch: creating the child. -/
def Event.out_of_process : Event → Bool
  | .execv _ _ => true
  | .CreateProcess _ => true
  | _ => false

/-- The calls that load the JVM library or look up its entry point. -/
def Event.loads_library : Event → Bool
  | .LoadLibrary _ => true
  | .GetProcAddress _ => true
  | .dlopen _ => true
  | .dlsym _ => true
  | _ => false

/-- The calls of the in-process launch: the loader and JNI. -/
def Event.in_process : Event → Bool
  | .createJavaVM _ _ _ => true
  | .FindClass _ => true
  | .GetStaticMethodID _ _ _ => true
  | .NewObjectArray _ => true
  | .NewStringUTF _ => true
  | .SetObjectArrayElement _ _ => true
  | .CallStaticVoidMethod _ _ _ => true
  | e => e.loads_library

/-- The pointer to a string, as a written cell. -/
def cell (s : String) : Slot := some (.str s)

/-- The `JavaVMOption` entry the option loop writes for an option string. -/
def vm_option (s : String) : Option JavaVMOption :=
  some { optionString := some (.str s), extraInfo := 0 }

/-- The launcher flags the in-process launch refuses. -/
def launcher_flag (s : String) : Bool := decide (s = "-client") || decide (s = "-server")

/-- The message raised for a launcher flag. -/
def flag_message (s : String) : String :=
  if s = "-client" then "-client is not a valid option" else "-server is not a valid option"

/-- An eight-value argument list: one JVM option and two program options. -/
def sample_args : List mrb_value :=
  [.str "/nonexistent/java", .str "/nonexistent/libjvm.so", .str "", .str "Main", .fixnum 1,
   .str "-Xmx1g", .str "a", .str "b"]

/-! ## A concrete world for evaluation -/

/-- A Linux machine without a JVM: nothing can be executed, loaded or
resolved; the host converts string values to their contents. -/
def bareLinux : World where
  platform := .other
  PATH_MAX := 4096
  mrb_string_value_cstr := fun v =>
    match v with
    | .str s => .ok s
    | _ => .error (.raise .E_TYPE_ERROR "expected String")
  mrb_fixnum := fun v =>
    match v with
    | .fixnum n => n
    | _ => 0
  execv := fun _ _ => false
  WIFEXITED := fun s => s % 128 == 0
  WEXITSTATUS := fun s => (s / 256) % 256
  CreateProcess := fun _ => false
  dlopen := fun _ => none
  dlsym := fun _ _ => false
  JNI_CreateJavaVM := fun _ _ => -1
  FindClass := fun _ => none
  GetStaticMethodID := fun _ _ _ => none
  NewStringUTF := fun _ => none
  readlink := fun _ => none
  popen := fun _ => none
  RegOpenKeyEx := fun _ => false
  RegQueryValueEx := fun _ _ => false

/-- The main-method lookup and the call of `main`. -/
def Event.main_lookup_or_call : Event → Bool
  | .GetStaticMethodID _ _ _ => true
  | .CallStaticVoidMethod _ _ _ => true
  | _ => false

/-- The error of line 267, VM creation failure. -/
def JVM_creation_failed : Stop := .raise .E_RUNTIME_ERROR "JVM creation failed"

/-- The error of line 277, method resolution failure. -/
def cannot_get_main_method : Stop := .raise .E_ARGUMENT_ERROR "Cannot get main method."

/-- The error of line 286, string marshalling failure. -/
def NewStringUTF_failed : Stop := .raise .E_ARGUMENT_ERROR "NewStringUTF() failed"

/-- A Linux machine with a JVM whose only class is `Main`, and `Main` has no
`main` method. -/
def jvmLinux : World :=
  { bareLinux with
    dlopen := fun _ => some 1
    dlsym := fun _ _ => true
    JNI_CreateJavaVM := fun _ _ => 0
    FindClass := fun p => if p = .str "Main" then some 1 else none
    NewStringUTF := fun _ => some 1 }

/-- The vector `launch_jvm_out_of_proc` builds from `sample_args`. -/
def sample_pargv : List Slot :=
  [cell "/nonexistent/java", cell "-Xmx1g", cell "Main", cell "a", cell "b", some .null]

/-- The outcome of a launch refused for its argument count: the two flushes
and `mrb_get_args`, then the argument error. -/
def wrong_number_of_arguments : Res mrb_value :=
  ⟨[.fflush "stdout", .fflush "stderr", .mrb_get_args],
   .error (.raise .E_ARGUMENT_ERROR "wrong number of arguments")⟩

/-! ## Basic facts about `Res` -/

@[simp] theorem Res.bind_eq {α β : Type} (x : Res α) (f : α → Res β) :
    x >>= f = Res.andThen x f := rfl

@[simp] theorem Res.pure_eq {α : Type} (a : α) : (pure a : Res α) = Res.ret a := rfl

@[simp] theorem Res.ret_andThen {α β : Type} (a : α) (f : α → Res β) :
    Res.andThen (Res.ret a) f = f a := by
  simp [Res.andThen, Res.ret]

@[simp] theorem Res.mk_ok_andThen {α β : Type} (t : List Event) (a : α) (f : α → Res β) :
    Res.andThen ⟨t, .ok a⟩ f = ⟨t ++ (f a).trace, (f a).out⟩ := rfl

@[simp] theorem Res.mk_error_andThen {α β : Type} (t : List Event) (e : Stop) (f : α → Res β) :
    Res.andThen ⟨t, .error e⟩ f = ⟨t, .error e⟩ := rfl

@[simp] theorem Res.stop_andThen {α β : Type} (e : Stop) (f : α → Res β) :
    Res.andThen (stop e) f = stop e := rfl

@[simp] theorem Res.emit_andThen {β : Type} (e : Event) (f : Unit → Res β) :
    Res.andThen (emit e) f = ⟨e :: (f ()).trace, (f ()).out⟩ := rfl

theorem load_of_getElem? {α : Type} (a : List α) (i : Nat) (x : α) (h : a[i]? = some x) :
    load a (i : Int) = Res.ret x := by
  simp [load, h]

theorem store_at_length {α : Type} (pre post : List α) (old x : α) (i : Int)
    (h : i = (pre.length : Int)) :
    store (pre ++ old :: post) i x = Res.ret (pre ++ x :: post) := by
  subst h
  simp [store]

/-- A counted loop whose body obtains a value from `src k` and stores its
image at cell `k + d` overwrites the cells `i + d .. i + d + n - 1` with the
values obtained, in order, and makes the calls of `src` in order. -/
theorem forLoop_store {α β : Type} (src : Int → Res α) (f : α → β) (d : Nat)
    (tr : Nat → List Event) :
    ∀ (vals : List α) (i : Nat) (pre hole post : List β),
      pre.length = i + d → hole.length = vals.length →
      (∀ j (hj : j < vals.length), src ((i + j : Nat) : Int) = ⟨tr (i + j), .ok vals[j]⟩) →
      forLoop (fun k a => Res.andThen (src k) fun x => store a (k + (d : Int)) (f x))
          vals.length (i : Int) (pre ++ hole ++ post)
        = ⟨(List.range' i vals.length).flatMap tr, .ok (pre ++ vals.map f ++ post)⟩ := by
  intro vals
  induction vals with
  | nil =>
    intro i pre hole post _ hh _
    have : hole = [] := List.length_eq_zero.mp hh
    subst this
    simp [forLoop, Res.ret]
  | cons v vs ih =>
    intro i pre hole post hpre hh hsrc
    match hole, hh with
    | old :: hs, hh =>
      have h0 := hsrc 0 (by simp)
      simp only [Nat.add_zero, List.getElem_cons_zero] at h0
      have hstore : store (pre ++ old :: (hs ++ post)) ((i : Int) + (d : Int)) (f v)
          = Res.ret (pre ++ f v :: (hs ++ post)) :=
        store_at_length pre (hs ++ post) old (f v) _ (by rw [hpre]; push_cast; rfl)
      have ih1 := ih (i + 1) (pre ++ [f v]) hs post (by simp [hpre]; omega)
        (by simpa using hh) (by
          intro j hj
          have := hsrc (j + 1) (by simpa using hj)
          simpa [Nat.add_assoc, Nat.add_comm 1 j] using this)
      simp only [List.length_cons, forLoop, Res.bind_eq, List.cons_append, List.append_assoc,
        h0, Res.mk_ok_andThen, hstore, Res.ret, List.append_nil]
      have e1 : ((i : Int) + 1) = ((i + 1 : Nat) : Int) := by push_cast; rfl
      rw [e1]
      have e2 : pre ++ f v :: (hs ++ post) = (pre ++ [f v]) ++ hs ++ post := by simp
      rw [e2, ih1]
      simp [List.range'_succ]

/-! ## Argument marshalling -/

theorem flatMap_shift {β : Type} (g : Nat → β) (off : Nat) :
    ∀ (n a : Nat), ((List.range' a n).flatMap fun j => [g (j + off)])
      = (List.range' (a + off) n).map g := by
  intro n
  induction n with
  | zero => intro a; simp
  | succ n ih =>
    intro a
    have h := ih (a + 1)
    simp only [List.range'_succ, List.flatMap_cons, List.map_cons, List.singleton_append, h]
    rw [show a + 1 + off = a + off + 1 by omega]

theorem getElem?_middle {α : Type} (pre mid post : List α) (j : Nat) (hj : j < mid.length) :
    (pre ++ mid ++ post)[pre.length + j]? = some mid[j] := by
  rw [List.append_assoc, List.getElem?_append_right (by omega)]
  simp [List.getElem?_append_left, hj]

theorem argv_cstr_of_str (w : World) (argv : List mrb_value) (p : Nat) (s : String)
    (hp : argv[p]? = some (.str s)) (hconv : w.mrb_string_value_cstr (.str s) = .ok s) :
    argv_cstr w argv (p : Int) = ⟨[marshal_event p], .ok (.str s)⟩ := by
  simp [argv_cstr, load_of_getElem? argv p _ hp, hconv, marshal_event, Res.ret, emit]

/-- On a list `pre ++ strings ++ post`, marshalling `strings.length` values
from offset `pre.length` reads exactly the positions of `strings`, in order,
and returns their contents in order. -/
theorem process_mrb_args_middle (w : World) (pre : List mrb_value) (ss : List String)
    (post : List mrb_value) (hconv : ∀ s ∈ ss, w.mrb_string_value_cstr (.str s) = .ok s) :
    process_mrb_args w (pre ++ ss.map .str ++ post) pre.length ss.length
      = ⟨(List.range' pre.length ss.length).map marshal_event,
         .ok (ss.map fun s => some (.str s))⟩ := by
  have hbody : (fun (i : Int) (opts : List Slot) => do
        let p ← argv_cstr w (pre ++ ss.map .str ++ post) (i + (pre.length : Int))
        store opts i (some p))
      = (fun k a => Res.andThen
          (argv_cstr w (pre ++ ss.map .str ++ post) (k + (pre.length : Int)))
          fun x => store a (k + ((0 : Nat) : Int)) (some x)) := by
    funext k a
    simp
  have key := forLoop_store
    (fun k => argv_cstr w (pre ++ ss.map .str ++ post) (k + (pre.length : Int)))
    (fun x => (some x : Slot)) 0 (fun j => [marshal_event (j + pre.length)])
    (ss.map CharPtr.str) 0 [] (List.replicate ss.length none) []
    (by simp) (by simp) (by
      intro j hj
      have hj1 : j < ss.length := by simpa using hj
      have hget := getElem?_middle pre (ss.map mrb_value.str) post j (by simpa using hj1)
      have := argv_cstr_of_str w (pre ++ ss.map .str ++ post) (pre.length + j) ss[j]
        (by simpa using hget) (hconv _ (List.getElem_mem _))
      simp only [Nat.zero_add]
      rw [show ((j : Nat) : Int) + (pre.length : Int) = ((pre.length + j : Nat) : Int) by
        push_cast; omega]
      simpa [Nat.add_comm] using this)
  simp only [process_mrb_args, malloc, Int.toNat_ofNat, hbody]
  simp only [List.length_map, List.nil_append, List.append_nil] at key
  refine key.trans ?_
  congr 1
  · exact flatMap_shift marshal_event pre.length ss.length 0 |>.trans (by simp)
  · simp [List.map_map, Function.comp_def]

/-- A window of an argument list that holds only strings, cut out of the
list. -/
theorem window_split (argv : List mrb_value) (offset k : Nat) (hin : offset + k ≤ argv.length)
    (hstr : ∀ i, i < k → ∃ s, argv[offset + i]? = some (.str s)) :
    argv = argv.take offset ++ (((argv.drop offset).take k).map content).map .str
        ++ argv.drop (offset + k)
      ∧ (argv.take offset).length = offset
      ∧ (((argv.drop offset).take k).map content).length = k := by
  have hmid : ((argv.drop offset).take k).map (fun v => mrb_value.str (content v))
      = (argv.drop offset).take k := by
    apply List.ext_getElem?
    intro i
    by_cases hi : i < k
    · obtain ⟨s, hs⟩ := hstr i hi
      simp [List.getElem?_take, hi, hs, content]
    · simp [List.getElem?_take, hi]
  refine ⟨?_, by simp; omega, by simp; omega⟩
  rw [List.map_map]
  show argv = _ ++ List.map (fun v => mrb_value.str (content v)) _ ++ _
  rw [hmid, List.append_assoc, ← List.drop_drop, List.take_append_drop, List.take_append_drop]

/-- Marshalling a window of strings: the calls made and the block returned. -/
theorem process_mrb_args_window (w : World) (argv : List mrb_value) (offset k : Nat)
    (hin : offset + k ≤ argv.length)
    (hstr : ∀ i, i < k → ∃ s, argv[offset + i]? = some (.str s) ∧
      w.mrb_string_value_cstr (.str s) = .ok s) :
    process_mrb_args w argv offset k
      = ⟨(List.range' offset k).map marshal_event,
         .ok ((((argv.drop offset).take k).map content).map fun s => some (.str s))⟩ := by
  obtain ⟨hsplit, hpre, hlen⟩ := window_split argv offset k hin
    (fun i hi => (hstr i hi).imp fun _ h => h.1)
  have hget : ∀ i, i < k → ((argv.drop offset).take k)[i]? = argv[offset + i]? := by
    intro i hi
    simp [List.getElem?_take, hi]
  have hconv : ∀ s ∈ ((argv.drop offset).take k).map content,
      w.mrb_string_value_cstr (.str s) = .ok s := by
    intro s hs
    obtain ⟨v, hv, rfl⟩ := List.mem_map.mp hs
    obtain ⟨i, hi, hvi⟩ := List.getElem_of_mem hv
    have hik : i < k := by
      have := hi
      simp only [List.length_take] at this
      omega
    obtain ⟨t, ht, hc⟩ := hstr i hik
    have h1 : ((argv.drop offset).take k)[i]? = some v := by
      rw [List.getElem?_eq_getElem hi, hvi]
    rw [hget i hik, ht] at h1
    cases h1
    simpa [content] using hc
  have hrun := process_mrb_args_middle w (argv.take offset)
    (((argv.drop offset).take k).map content) (argv.drop (offset + k)) hconv
  rw [← hsplit, hpre, hlen] at hrun
  exact hrun

/-- C6. For every argument list, offset and count `k` with `offset + k`
inside the list, whose `k` values from `offset` on are strings that the host
hands out unchanged, `process_mrb_args` returns a block of exactly `k`
entries; entry `i` is a pointer to the contents of source element
`offset + i`; for `k = 0` the block is empty. -/
theorem process_mrb_args_preserves (w : World) (argv : List mrb_value) (offset k : Nat)
    (hin : offset + k ≤ argv.length)
    (hstr : ∀ i, i < k → ∃ s, argv[offset + i]? = some (.str s) ∧
      w.mrb_string_value_cstr (.str s) = .ok s) :
    ∃ opts : List Slot,
      (process_mrb_args w argv offset k).out = .ok opts ∧
      opts.length = k ∧
      (∀ i s, i < k → argv[offset + i]? = some (.str s) → opts[i]? = some (some (.str s))) ∧
      (k = 0 → opts = []) := by
  have hrun := process_mrb_args_window w argv offset k hin hstr
  refine ⟨_, by rw [hrun], by simp; omega, ?_, ?_⟩
  · intro i s hi hs
    have h1 : ((argv.drop offset).take k)[i]? = some (.str s) := by
      simp [List.getElem?_take, hi, hs]
    rw [List.getElem?_map, List.getElem?_map, h1]
    rfl
  · intro hk
    subst hk
    simp

/-- A witness for C6: three strings marshalled from offset 5 of an
eight-element list. -/
theorem process_mrb_args_preserves_witness :
    ∃ opts : List Slot,
      (process_mrb_args bareLinux
        [.str "java", .str "libjvm.so", .str "", .str "Main", .fixnum 1,
         .str "-Xmx1g", .str "a", .str "b"] (5 : Nat) (3 : Nat)).out = .ok opts ∧
      opts.length = 3 ∧
      (∀ i s, i < 3 →
        ([.str "java", .str "libjvm.so", .str "", .str "Main", .fixnum 1,
          .str "-Xmx1g", .str "a", .str "b"] : List mrb_value)[5 + i]? = some (.str s) →
        opts[i]? = some (some (.str s))) ∧
      ((3 : Nat) = 0 → opts = []) :=
  process_mrb_args_preserves bareLinux _ 5 3 (by decide) (by
    intro i hi
    match i, hi with
    | 0, _ => exact ⟨"-Xmx1g", rfl, rfl⟩
    | 1, _ => exact ⟨"a", rfl, rfl⟩
    | 2, _ => exact ⟨"b", rfl, rfl⟩)

/-! ## The argument count check -/

/-- C1. With fewer than 6 arguments, `mrb_launch_jvm` with either flag value,
and so both `_exec_java_` and `_system_java_`, ends in the argument error
"wrong number of arguments" after the two flushes and `mrb_get_args` only: no
argument is marshalled and neither launch is started. -/
theorem mrb_launch_jvm_too_few_args (w : World) (in_proc : Int) (argv : List mrb_value)
    (h : argv.length < 6) :
    mrb_launch_jvm w in_proc argv = wrong_number_of_arguments ∧
    mrb_java_support_exec w argv = wrong_number_of_arguments ∧
    mrb_java_support_system w argv = wrong_number_of_arguments ∧
    wrong_number_of_arguments.trace.all
      (fun e => !e.marshals && !e.out_of_process && !e.in_process) = true := by
  have hlt : ((argv.length : Nat) : Int) < 6 := by exact_mod_cast h
  have key : ∀ f : Int, mrb_launch_jvm w f argv = wrong_number_of_arguments := by
    intro f
    simp [mrb_launch_jvm, mrb_launch_jvm.locals, hlt, mrb_raise, stop, wrong_number_of_arguments]
  exact ⟨key in_proc, key 0, key 1, by decide⟩

/-- A witness for C1: five arguments, out-of-process flag. -/
theorem mrb_launch_jvm_too_few_args_witness :
    mrb_launch_jvm bareLinux 1
        [.str "java", .str "libjvm.so", .str "", .str "Main", .fixnum 0]
      = wrong_number_of_arguments :=
  (mrb_launch_jvm_too_few_args bareLinux 1
    [.str "java", .str "libjvm.so", .str "", .str "Main", .fixnum 0] (by decide)).1

/-! ## The split of the argument list -/

/-- C5. For an argument list of `n` values and a JVM option count `k` with
`n ≥ 6 + k` (position 4 holds `k`, the other positions hold strings the host
hands out unchanged), `mrb_launch_jvm` computes the program option count
`n - 5 - k`, takes the JVM options from positions `5 .. 5+k-1` and the
program options from positions `5+k .. n-1`; the positions marshalled after
the fixed five are `5, 6, .., n-1`, each once and in order, all below `n`. -/
theorem mrb_launch_jvm_splits_arguments (w : World) (argv : List mrb_value) (k : Nat)
    (hn : 6 + k ≤ argv.length)
    (h4 : ∃ v, argv[4]? = some v ∧ w.mrb_fixnum v = (k : Int))
    (hstr : ∀ i, i < argv.length → i ≠ 4 → ∃ s, argv[i]? = some (.str s) ∧
      w.mrb_string_value_cstr (.str s) = .ok s) :
    ∃ l : Locals,
      (mrb_launch_jvm.locals w argv).out = .ok l ∧
      l.java_optsc = (k : Int) ∧
      l.prgm_optsc = (argv.length : Int) - 5 - (k : Int) ∧
      l.java_opts = (((argv.drop 5).take k).map content).map (fun s => some (.str s)) ∧
      l.prgm_opts = ((argv.drop (5 + k)).map content).map (fun s => some (.str s)) ∧
      (mrb_launch_jvm.locals w argv).trace
        = [.fflush "stdout", .fflush "stderr", .mrb_get_args, marshal_event 0, marshal_event 1,
           marshal_event 2, marshal_event 3, .mrb_fixnum 4]
          ++ (List.range' 5 k).map marshal_event
          ++ (List.range' (5 + k) (argv.length - 5 - k)).map marshal_event ∧
      List.range' 5 k ++ List.range' (5 + k) (argv.length - 5 - k)
        = List.range' 5 (argv.length - 5) ∧
      (∀ p ∈ List.range' 5 (argv.length - 5), p < argv.length) := by
  obtain ⟨v, hv, hk⟩ := h4
  obtain ⟨s0, h0, c0⟩ := hstr 0 (by omega) (by decide)
  obtain ⟨s1, h1, c1⟩ := hstr 1 (by omega) (by decide)
  obtain ⟨s2, h2, c2⟩ := hstr 2 (by omega) (by decide)
  obtain ⟨s3, h3, c3⟩ := hstr 3 (by omega) (by decide)
  have e0 : argv_cstr w argv 0 = ⟨[marshal_event 0], .ok (.str s0)⟩ :=
    argv_cstr_of_str w argv 0 s0 h0 c0
  have e1 : argv_cstr w argv 1 = ⟨[marshal_event 1], .ok (.str s1)⟩ :=
    argv_cstr_of_str w argv 1 s1 h1 c1
  have e2 : argv_cstr w argv 2 = ⟨[marshal_event 2], .ok (.str s2)⟩ :=
    argv_cstr_of_str w argv 2 s2 h2 c2
  have e3 : argv_cstr w argv 3 = ⟨[marshal_event 3], .ok (.str s3)⟩ :=
    argv_cstr_of_str w argv 3 s3 h3 c3
  have e4 : load argv 4 = Res.ret v := load_of_getElem? argv 4 v hv
  have ej : process_mrb_args w argv 5 (k : Int) = _ :=
    process_mrb_args_window w argv 5 k (by omega)
      (fun i _ => hstr (5 + i) (by omega) (by omega))
  have ep : process_mrb_args w argv (5 + (k : Int)) ((argv.length : Int) - (5 + (k : Int)))
      = ⟨(List.range' (5 + k) (argv.length - 5 - k)).map marshal_event,
         .ok ((((argv.drop (5 + k)).take (argv.length - 5 - k)).map content).map
           fun s => some (.str s))⟩ := by
    have := process_mrb_args_window w argv (5 + k) (argv.length - 5 - k) (by omega)
      (fun i _ => hstr (5 + k + i) (by omega) (by omega))
    rw [show ((5 + k : Nat) : Int) = 5 + (k : Int) by push_cast; rfl,
      show ((argv.length - 5 - k : Nat) : Int) = (argv.length : Int) - (5 + (k : Int)) by omega]
      at this
    exact this
  have hge : ¬ ((argv.length : Nat) : Int) < 6 := by omega
  have htake : (argv.drop (5 + k)).take (argv.length - 5 - k) = argv.drop (5 + k) := by
    apply List.take_of_length_le
    simp
    omega
  have hrun : mrb_launch_jvm.locals w argv
      = ⟨[.fflush "stdout", .fflush "stderr", .mrb_get_args, marshal_event 0, marshal_event 1,
           marshal_event 2, marshal_event 3, .mrb_fixnum 4]
          ++ (List.range' 5 k).map marshal_event
          ++ (List.range' (5 + k) (argv.length - 5 - k)).map marshal_event,
         .ok { java_exe := .str s0, java_dl := .str s1, jli_dl := .str s2,
               java_main_class := .str s3, java_optsc := k,
               prgm_optsc := (argv.length : Int) - (5 + (k : Int)),
               java_opts := (((argv.drop 5).take k).map content).map (fun s => some (.str s)),
               prgm_opts := ((argv.drop (5 + k)).map content).map
                 (fun s => some (.str s)) }⟩ := by
    simp only [mrb_launch_jvm.locals, Res.bind_eq, Res.emit_andThen, hge, if_false, e0, e1, e2,
      e3, e4, hk, ej, ep, Res.mk_ok_andThen, Res.ret_andThen, Res.pure_eq, Res.ret, emit, htake]
    simp
  refine ⟨_, by rw [hrun], rfl, by simp; omega, rfl, rfl, by rw [hrun], ?_, ?_⟩
  · have hsum : argv.length - 5 - k + k = argv.length - 5 := by omega
    rw [List.range'_append_1 5 k (argv.length - 5 - k), hsum]
  · intro p hp
    simp only [List.mem_range'_1] at hp
    omega

/-- A witness for C5: eight arguments, one JVM option, two program options. -/
theorem mrb_launch_jvm_splits_arguments_witness :
    ∃ l : Locals,
      (mrb_launch_jvm.locals bareLinux sample_args).out = .ok l ∧
      l.prgm_optsc = ((sample_args.length : Nat) : Int) - 5 - ((1 : Nat) : Int) ∧
      l.java_opts = [cell "-Xmx1g"] ∧
      l.prgm_opts = [cell "a", cell "b"] :=
  (mrb_launch_jvm_splits_arguments bareLinux sample_args 1 (by decide)
    ⟨.fixnum 1, rfl, rfl⟩ (by
      intro i hi h4
      match i, hi, h4 with
      | 0, _, _ => exact ⟨_, rfl, rfl⟩
      | 1, _, _ => exact ⟨_, rfl, rfl⟩
      | 2, _, _ => exact ⟨_, rfl, rfl⟩
      | 3, _, _ => exact ⟨_, rfl, rfl⟩
      | 5, _, _ => exact ⟨_, rfl, rfl⟩
      | 6, _, _ => exact ⟨_, rfl, rfl⟩
      | 7, _, _ => exact ⟨_, rfl, rfl⟩)).imp
    fun _ h => ⟨h.1, h.2.2.1, h.2.2.2.1, h.2.2.2.2.1⟩

/-! ## The argument vector of the out-of-process launch -/

theorem malloc_split (n m : Nat) :
    malloc ((n : Int) + (m : Int) + 3)
      = [] ++ none :: (List.replicate n none ++ (none :: (List.replicate m none ++ [none]))) := by
  have h : ((n : Int) + (m : Int) + 3).toNat = 1 + (n + (1 + (m + 1))) := by omega
  simp only [malloc, h, List.replicate_add, List.nil_append]
  rfl

theorem load_from_start {α : Type} (xs : List α) (j : Nat) (hj : j < xs.length) :
    load xs ((0 + j : Nat) : Int) = ⟨[], .ok xs[j]⟩ := by
  rw [Nat.zero_add]
  exact load_of_getElem? xs j xs[j] (List.getElem?_eq_getElem hj)

/-- Lines 209-221 with a non-null main class: the block built is the
executable, the JVM options, the main class, the program options and NULL,
and building it makes no external call. -/
theorem pargv_built (java_exe java_main_class : CharPtr) (hmain : java_main_class ≠ .null)
    (J P : List Slot) :
    launch_jvm_out_of_proc.pargv java_exe java_main_class J J.length P P.length
      = Res.ret (some java_exe :: (J ++ (some java_main_class :: (P ++ [some .null])))) := by
  have s0 : store ([] ++ none :: (List.replicate J.length none
        ++ (none :: (List.replicate P.length none ++ [none])))) 0 (some java_exe)
      = Res.ret ([] ++ some java_exe :: (List.replicate J.length none
        ++ (none :: (List.replicate P.length none ++ [(none : Slot)])))) :=
    store_at_length [] _ none (some java_exe) 0 rfl
  have l1 := forLoop_store (fun k => load J k) (fun x => x) 1 (fun _ => []) J 0
    [some java_exe] (List.replicate J.length none)
    (none :: (List.replicate P.length none ++ [none]))
    (by simp) (by simp) (fun j hj => load_from_start J j hj)
  have s1 : store (some java_exe :: (J ++ (none :: (List.replicate P.length none ++ [none]))))
        ((J.length : Int) + 1) (some java_main_class)
      = Res.ret (some java_exe :: (J ++
          (some java_main_class :: (List.replicate P.length none ++ [(none : Slot)])))) := by
    have := store_at_length (some java_exe :: J) (List.replicate P.length none ++ [none]) none
      (some java_main_class) ((J.length : Int) + 1) (by simp)
    simpa using this
  have hb2 : (fun (i : Int) (pargv : List Slot) => do
        let p ← load P i
        store pargv (i + (J.length : Int) + 2) p)
      = (fun k a => Res.andThen (load P k)
          fun x => store a (k + ((J.length + 2 : Nat) : Int)) ((fun x => x) x)) := by
    funext k a
    simp [add_assoc]
  have l2 := forLoop_store (fun k => load P k) (fun x => x) (J.length + 2) (fun _ => []) P 0
    (some java_exe :: (J ++ [some java_main_class])) (List.replicate P.length none) [none]
    (by simp) (by simp) (fun j hj => load_from_start P j hj)
  have s2 : store (some java_exe :: (J ++ (some java_main_class :: (P ++ [none]))))
        ((J.length : Int) + (P.length : Int) + 3 - 1) (some CharPtr.null)
      = Res.ret (some java_exe :: (J ++ (some java_main_class :: (P ++ [some .null])))) := by
    have := store_at_length (some java_exe :: (J ++ (some java_main_class :: P))) [] none
      (some CharPtr.null) ((J.length : Int) + (P.length : Int) + 3 - 1)
      (by simp; omega)
    simpa using this
  simp only [List.map_id', List.flatMap_nil, List.cons_append, List.nil_append,
    List.append_assoc] at l1 l2
  have l1' : forLoop (fun (i : Int) (pargv : List Slot) => do
        let p ← load J i
        store pargv (i + 1) p) J.length 0
        (some java_exe :: (List.replicate J.length none
          ++ (none :: (List.replicate P.length none ++ [none]))))
      = ⟨[], .ok (some java_exe :: (J ++ (none :: (List.replicate P.length none ++ [none]))))⟩ := by
    refine Eq.trans ?_ (l1.trans ?_)
    · rfl
    · simp
  have l2' : forLoop (fun (i : Int) (pargv : List Slot) => do
        let p ← load P i
        store pargv (i + (J.length : Int) + 2) p) P.length 0
        (some java_exe :: (J ++ (some java_main_class :: (List.replicate P.length none ++ [none]))))
      = ⟨[], .ok (some java_exe :: (J ++ (some java_main_class :: (P ++ [none]))))⟩ := by
    rw [hb2]
    refine Eq.trans ?_ (l2.trans ?_)
    · rfl
    · simp
  simp only [Res.bind_eq] at l1' l2'
  simp only [List.nil_append] at s0
  simp only [launch_jvm_out_of_proc.pargv, malloc_split, s0, Res.bind_eq, Res.ret_andThen,
    List.nil_append, Int.toNat_ofNat, l1', Res.mk_ok_andThen, hmain, ne_eq, not_false_eq_true,
    if_true, s1, l2', s2, Res.ret, List.append_nil]

/-- C4. For every executable path, `n` JVM options, given main class name
and `m` program options, `launch_jvm_out_of_proc` is `mrb_p_exec` (its value
dropped) on a vector of exactly `n + m + 3` entries with count `n + m + 3`:
entry 0 is the executable, entries `1 .. n` the JVM options in order, entry
`n + 1` the main class, entries `n + 2 .. n + m + 1` the program options in
order, and entry `n + m + 2` is NULL. -/
theorem launch_jvm_out_of_proc_vector (w : World) (java_exe java_main_class : String)
    (java_opts prgm_opts : List String) :
    ∃ pargv : List Slot,
      launch_jvm_out_of_proc w (.str java_exe) (.str java_main_class)
          (java_opts.map cell) java_opts.length (prgm_opts.map cell) prgm_opts.length
        = Res.andThen
            (mrb_p_exec w pargv ((java_opts.length : Int) + (prgm_opts.length : Int) + 3))
            (fun _ => Res.ret ()) ∧
      pargv.length = java_opts.length + prgm_opts.length + 3 ∧
      pargv[0]? = some (cell java_exe) ∧
      (∀ i : Fin java_opts.length, pargv[i.val + 1]? = some (cell java_opts[i])) ∧
      pargv[java_opts.length + 1]? = some (cell java_main_class) ∧
      (∀ j : Fin prgm_opts.length,
        pargv[java_opts.length + 2 + j.val]? = some (cell prgm_opts[j])) ∧
      pargv[java_opts.length + prgm_opts.length + 2]? = some (some .null) := by
  have hb := pargv_built (.str java_exe) (.str java_main_class) (by simp)
    (java_opts.map cell) (prgm_opts.map cell)
  simp only [List.length_map] at hb
  refine ⟨cell java_exe :: (java_opts.map cell ++
      (cell java_main_class :: (prgm_opts.map cell ++ [some .null]))), ?_, ?_, ?_, ?_, ?_, ?_, ?_⟩
  · simp only [launch_jvm_out_of_proc, hb, Res.bind_eq, Res.ret_andThen, Res.pure_eq]
    rfl
  · simp
    omega
  · simp
  · intro i
    rw [List.getElem?_cons_succ, List.getElem?_append_left (by simp)]
    simp
  · rw [List.getElem?_cons_succ, List.getElem?_append_right (by simp)]
    simp
  · intro j
    rw [show java_opts.length + 2 + j.val = (java_opts.length + 1 + j.val) + 1 by omega,
      List.getElem?_cons_succ, List.getElem?_append_right (by simp; omega)]
    simp only [List.length_map]
    rw [show java_opts.length + 1 + j.val - java_opts.length = j.val + 1 by omega,
      List.getElem?_cons_succ, List.getElem?_append_left (by simp)]
    simp
  · rw [show java_opts.length + prgm_opts.length + 2
        = (java_opts.length + prgm_opts.length + 1) + 1 by omega,
      List.getElem?_cons_succ, List.getElem?_append_right (by simp; omega)]
    simp only [List.length_map]
    rw [show java_opts.length + prgm_opts.length + 1 - java_opts.length
        = prgm_opts.length + 1 by omega,
      List.getElem?_cons_succ, List.getElem?_append_right (by simp)]
    simp

/-! ## The in-process launch -/

theorem strcmp_eq0_cell (lit s : String) :
    strcmp_eq0 lit (cell s) = Res.ret (decide (lit = s)) := rfl

/-- The option loop from iteration `i` on: it stops with the argument error
at the first launcher flag, and otherwise fills one entry per option. -/
theorem jvm_opts_loop :
    ∀ (ss : List String) (i : Nat) (seen : List Slot) (pre hole : List (Option JavaVMOption)),
      seen.length = i → pre.length = i → hole.length = ss.length →
      forLoop (fun i jvm_opts => do
          let p ← load (seen ++ ss.map cell) i
          let jvm_opts ← store jvm_opts i (some { optionString := p, extraInfo := 0 })
          if ← strcmp_eq0 "-client" p then
            mrb_raise .E_ARGUMENT_ERROR "-client is not a valid option"
          else if ← strcmp_eq0 "-server" p then
            mrb_raise .E_ARGUMENT_ERROR "-server is not a valid option"
          else pure jvm_opts) ss.length (i : Int) (pre ++ hole)
        = match ss.find? launcher_flag with
          | some b => stop (.raise .E_ARGUMENT_ERROR (flag_message b))
          | none => Res.ret (pre ++ ss.map vm_option) := by
  intro ss
  induction ss with
  | nil =>
    intro i seen pre hole _ _ hh
    have : hole = [] := List.length_eq_zero.mp hh
    subst this
    simp [forLoop]
  | cons s rest ih =>
    intro i seen pre hole hseen hpre hh
    match hole, hh with
    | old :: hs, hh =>
      have hload : load (seen ++ (s :: rest).map cell) (i : Int) = Res.ret (cell s) :=
        load_of_getElem? _ i _ (by
          rw [List.getElem?_append_right (by omega)]
          simp [hseen])
      have hstore : store (pre ++ old :: hs) (i : Int)
            (some { optionString := cell s, extraInfo := 0 })
          = Res.ret (pre ++ vm_option s :: hs) :=
        store_at_length pre hs old _ _ (by rw [hpre])
      have ih1 := ih (i + 1) (seen ++ [cell s]) (pre ++ [vm_option s]) hs
        (by simp [hseen]) (by simp [hpre]) (by simpa using hh)
      simp only [List.append_assoc, List.singleton_append, List.map_cons] at ih1 hload
      have e1 : ((i : Int) + 1) = ((i + 1 : Nat) : Int) := by push_cast; rfl
      simp only [List.length_cons, forLoop, Res.bind_eq, List.map_cons, hload, Res.ret_andThen,
        hstore, strcmp_eq0_cell, e1]
      by_cases hc : s = "-client"
      · subst hc
        simp [List.find?, launcher_flag, flag_message, mrb_raise]
      · by_cases hsv : s = "-server"
        · subst hsv
          simp [List.find?, launcher_flag, flag_message, mrb_raise]
        · have hc1 : ¬ ("-client" = s) := fun h => hc h.symm
          have hs1 : ¬ ("-server" = s) := fun h => hsv h.symm
          have hflag : launcher_flag s = false := by simp [launcher_flag, hc, hsv]
          simp only [hc1, hs1, decide_False, Bool.false_eq_true, if_false, Res.pure_eq,
            Res.ret_andThen, List.find?, hflag]
          simp only [Res.bind_eq, Res.pure_eq] at ih1
          rw [ih1]

/-- Lines 236-244 on a list of option strings. -/
theorem jvm_opts_on_strings (opts : List String) :
    launch_jvm_in_proc.jvm_opts (opts.map cell) opts.length
      = match opts.find? launcher_flag with
        | some b => stop (.raise .E_ARGUMENT_ERROR (flag_message b))
        | none => Res.ret (opts.map vm_option) := by
  have h := jvm_opts_loop opts 0 [] [] (List.replicate opts.length none) rfl rfl (by simp)
  simp only [List.nil_append] at h
  simp only [launch_jvm_in_proc.jvm_opts, Int.toNat_ofNat]
  exact h

theorem find_launcher_flag_none (opts : List String) (h1 : "-client" ∉ opts)
    (h2 : "-server" ∉ opts) : opts.find? launcher_flag = none := by
  rw [List.find?_eq_none]
  intro s hs
  have hc : s ≠ "-client" := fun h => h1 (h ▸ hs)
  have hv : s ≠ "-server" := fun h => h2 (h ▸ hs)
  simp [launcher_flag, hc, hv]

theorem find_launcher_flag_some (opts : List String) (h : "-client" ∈ opts ∨ "-server" ∈ opts) :
    ∃ b, opts.find? launcher_flag = some b := by
  cases hf : opts.find? launcher_flag with
  | some b => exact ⟨b, rfl⟩
  | none =>
    rw [List.find?_eq_none] at hf
    rcases h with h | h
    · exact absurd (by simp [launcher_flag]) (hf _ h)
    · exact absurd (by simp [launcher_flag]) (hf _ h)

/-- Loading the library and looking up the entry point always returns, and
makes loader calls only. -/
theorem resolve_returns (w : World) (java_dl jli_dl : CharPtr) :
    ∃ t r, launch_jvm_in_proc.resolve w java_dl jli_dl = ⟨t, .ok r⟩ ∧
      t.all Event.loads_library = true := by
  unfold launch_jvm_in_proc.resolve
  cases w.platform <;>
    simp [emit, Res.ret, Event.loads_library]

/-- C2. For every list of JVM options: if one of them is `-client` or
`-server`, `launch_jvm_in_proc` ends in an argument error having made no
external call at all (no library is loaded, `JNI_CreateJavaVM` is not
called); if none is, the option loop raises nothing and yields the options in
order, the library is loaded and the entry point is called with exactly these
options in the same order. -/
theorem launch_jvm_in_proc_launcher_flags (w : World) (java_dl jli_dl java_main_class : CharPtr)
    (opts : List String) (prgm_opts : List Slot) (prgm_optsc : Int) :
    (("-client" ∈ opts ∨ "-server" ∈ opts) →
      ∃ msg, launch_jvm_in_proc w java_dl jli_dl java_main_class (opts.map cell) opts.length
          prgm_opts prgm_optsc = ⟨[], .error (.raise .E_ARGUMENT_ERROR msg)⟩) ∧
    (("-client" ∉ opts ∧ "-server" ∉ opts) →
      launch_jvm_in_proc.jvm_opts (opts.map cell) opts.length = Res.ret (opts.map vm_option) ∧
      ∃ resolved rest,
        (launch_jvm_in_proc.resolve w java_dl jli_dl).out = .ok resolved ∧
        (launch_jvm_in_proc w java_dl jli_dl java_main_class (opts.map cell) opts.length
            prgm_opts prgm_optsc).trace
          = (launch_jvm_in_proc.resolve w java_dl jli_dl).trace
            ++ .createJavaVM resolved opts.length (opts.map vm_option) :: rest) := by
  constructor
  · intro h
    obtain ⟨b, hb⟩ := find_launcher_flag_some opts h
    refine ⟨flag_message b, ?_⟩
    simp only [launch_jvm_in_proc, jvm_opts_on_strings, hb, Res.bind_eq, Res.stop_andThen]
    rfl
  · intro h
    have hnone := find_launcher_flag_none opts h.1 h.2
    have hloop : launch_jvm_in_proc.jvm_opts (opts.map cell) opts.length
        = Res.ret (opts.map vm_option) := by
      rw [jvm_opts_on_strings, hnone]
    obtain ⟨t, r, hr, _⟩ := resolve_returns w java_dl jli_dl
    refine ⟨hloop, r, Res.trace (α := Unit)
      (if r = true then
        if w.JNI_CreateJavaVM opts.length (opts.map vm_option) < 0 then
          mrb_raise .E_RUNTIME_ERROR "JVM creation failed"
        else launch_jvm_in_proc.run_main w java_main_class prgm_opts prgm_optsc
      else stop (.undefined "call through a null function pointer")), by rw [hr], ?_⟩
    simp only [launch_jvm_in_proc, hloop, Res.bind_eq, Res.ret_andThen, hr, Res.mk_ok_andThen,
      Res.emit_andThen]

/-- A witness for C2: `-server` among the options, and no launcher flag. -/
theorem launch_jvm_in_proc_launcher_flags_witness :
    (∃ msg, launch_jvm_in_proc bareLinux (.str "libjvm.so") (.str "") (.str "Main")
        (["-Xmx1g", "-server"].map cell) (["-Xmx1g", "-server"] : List String).length [] 0
        = ⟨[], .error (.raise .E_ARGUMENT_ERROR msg)⟩) ∧
    launch_jvm_in_proc.jvm_opts (["-Xmx1g"].map cell) (["-Xmx1g"] : List String).length
      = Res.ret (["-Xmx1g"].map vm_option) :=
  ⟨(launch_jvm_in_proc_launcher_flags bareLinux (.str "libjvm.so") (.str "") (.str "Main")
      ["-Xmx1g", "-server"] [] 0).1 (by decide),
   ((launch_jvm_in_proc_launcher_flags bareLinux (.str "libjvm.so") (.str "") (.str "Main")
      ["-Xmx1g"] [] 0).2 (by decide)).1⟩

/-- When no option is a launcher flag and the entry point is not resolved, the
null pointer is called all the same and the launch has no defined outcome;
nothing is raised. -/
theorem launch_jvm_in_proc_unresolved (w : World) (java_dl jli_dl java_main_class : CharPtr)
    (opts : List String) (prgm_opts : List Slot) (prgm_optsc : Int)
    (hopts : "-client" ∉ opts ∧ "-server" ∉ opts)
    (hres : (launch_jvm_in_proc.resolve w java_dl jli_dl).out = .ok false) :
    launch_jvm_in_proc w java_dl jli_dl java_main_class (opts.map cell) opts.length
        prgm_opts prgm_optsc
      = ⟨(launch_jvm_in_proc.resolve w java_dl jli_dl).trace
          ++ [.createJavaVM false opts.length (opts.map vm_option)],
         .error (.undefined "call through a null function pointer")⟩ := by
  have hloop : launch_jvm_in_proc.jvm_opts (opts.map cell) opts.length
      = Res.ret (opts.map vm_option) := by
    rw [jvm_opts_on_strings, find_launcher_flag_none opts hopts.1 hopts.2]
  obtain ⟨t, r, hr, _⟩ := resolve_returns w java_dl jli_dl
  rw [hr] at hres
  cases hres
  simp [launch_jvm_in_proc, hloop, hr, stop]

/-- C7 fails on the code. With a library that cannot be loaded,
`launch_jvm_in_proc` calls the null `createJavaVM` pointer after `dlopen` and
`dlsym`; no error is raised to the host. -/
theorem launch_jvm_in_proc_calls_null_entry_point :
    launch_jvm_in_proc bareLinux (.str "/nonexistent/libjvm.so") (.str "") (.str "Main")
        [cell "-Xmx1g"] 1 [] 0
      = ⟨[.dlopen (.str "/nonexistent/libjvm.so"), .dlsym "JNI_CreateJavaVM",
          .createJavaVM false 1 [vm_option "-Xmx1g"]],
         .error (.undefined "call through a null function pointer")⟩ := by
  rfl

/-- The common start of an in-process launch whose options hold no launcher
flag and whose entry point is resolved and creates the VM. -/
theorem launch_jvm_in_proc_vm_created (w : World) (java_dl jli_dl java_main_class : CharPtr)
    (opts : List String) (prgm_opts : List Slot) (prgm_optsc : Int)
    (hopts : "-client" ∉ opts ∧ "-server" ∉ opts)
    (hres : (launch_jvm_in_proc.resolve w java_dl jli_dl).out = .ok true)
    (hvm : 0 ≤ w.JNI_CreateJavaVM opts.length (opts.map vm_option)) :
    launch_jvm_in_proc w java_dl jli_dl java_main_class (opts.map cell) opts.length
        prgm_opts prgm_optsc
      = Res.andThen
          ⟨(launch_jvm_in_proc.resolve w java_dl jli_dl).trace
            ++ [.createJavaVM true opts.length (opts.map vm_option)], .ok ()⟩
          (fun _ => launch_jvm_in_proc.run_main w java_main_class prgm_opts prgm_optsc) := by
  have hloop : launch_jvm_in_proc.jvm_opts (opts.map cell) opts.length
      = Res.ret (opts.map vm_option) := by
    rw [jvm_opts_on_strings, find_launcher_flag_none opts hopts.1 hopts.2]
  obtain ⟨t, r, hr, _⟩ := resolve_returns w java_dl jli_dl
  rw [hr] at hres
  cases hres
  have hnot : ¬ w.JNI_CreateJavaVM opts.length (opts.map vm_option) < 0 := not_lt.mpr hvm
  simp [launch_jvm_in_proc, hloop, hr, hnot]

/-- A VM creation failure raises the error of line 267. -/
theorem launch_jvm_in_proc_vm_failure (w : World) (java_dl jli_dl java_main_class : CharPtr)
    (opts : List String) (prgm_opts : List Slot) (prgm_optsc : Int)
    (hopts : "-client" ∉ opts ∧ "-server" ∉ opts)
    (hres : (launch_jvm_in_proc.resolve w java_dl jli_dl).out = .ok true)
    (hvm : w.JNI_CreateJavaVM opts.length (opts.map vm_option) < 0) :
    (launch_jvm_in_proc w java_dl jli_dl java_main_class (opts.map cell) opts.length
        prgm_opts prgm_optsc).out = .error JVM_creation_failed := by
  have hloop : launch_jvm_in_proc.jvm_opts (opts.map cell) opts.length
      = Res.ret (opts.map vm_option) := by
    rw [jvm_opts_on_strings, find_launcher_flag_none opts hopts.1 hopts.2]
  obtain ⟨t, r, hr, _⟩ := resolve_returns w java_dl jli_dl
  rw [hr] at hres
  cases hres
  simp [launch_jvm_in_proc, hloop, hr, hvm, mrb_raise, stop, JVM_creation_failed]

/-- A method resolution failure raises the error of line 277. -/
theorem run_main_method_failure (w : World) (java_main_class : CharPtr) (cls : Nat)
    (prgm_opts : List Slot) (prgm_optsc : Int)
    (hfc : w.FindClass java_main_class = some cls)
    (hm : w.GetStaticMethodID cls "main" "([Ljava/lang/String;)V" = none) :
    (launch_jvm_in_proc.run_main w java_main_class prgm_opts prgm_optsc).out
      = .error cannot_get_main_method := by
  simp [launch_jvm_in_proc.run_main, hfc, hm, mrb_raise, stop, cannot_get_main_method]

/-- A string marshalling failure on the first program argument raises the
error of line 286. -/
theorem run_main_string_failure (w : World) (java_main_class : CharPtr) (cls mid : Nat)
    (arg : String) (rest : List Slot)
    (hfc : w.FindClass java_main_class = some cls)
    (hm : w.GetStaticMethodID cls "main" "([Ljava/lang/String;)V" = some mid)
    (hs : w.NewStringUTF (.str arg) = none) :
    (launch_jvm_in_proc.run_main w java_main_class (cell arg :: rest)
        ((rest.length : Int) + 1)).out = .error NewStringUTF_failed := by
  have hn : ((rest.length : Int) + 1).toNat = rest.length + 1 := by omega
  have hl : load (some (CharPtr.str arg) :: rest) 0 = Res.ret (some (CharPtr.str arg)) := by
    simp [load, Res.ret]
  simp [launch_jvm_in_proc.run_main, hfc, hm, hn, forLoop, cell, hl, hs, mrb_raise, stop,
    NewStringUTF_failed]

/-- C8, amended. For every main class name, when no option is a launcher flag,
the entry point is resolved and creates the VM, and `FindClass` returns
NULL, `launch_jvm_in_proc` ends in the argument error whose message is
exactly the class name, right after the `FindClass` call: neither the method
lookup nor the call of `main` takes place.  The error differs from the VM
creation error for every name, and from the method resolution and string
marshalling errors for every name other than their two messages. -/
theorem launch_jvm_in_proc_class_not_found (w : World) (java_dl jli_dl : CharPtr) (name : String)
    (opts : List String) (prgm_opts : List Slot) (prgm_optsc : Int)
    (hopts : "-client" ∉ opts ∧ "-server" ∉ opts)
    (hres : (launch_jvm_in_proc.resolve w java_dl jli_dl).out = .ok true)
    (hvm : 0 ≤ w.JNI_CreateJavaVM opts.length (opts.map vm_option))
    (hfc : w.FindClass (.str name) = none) :
    launch_jvm_in_proc w java_dl jli_dl (.str name) (opts.map cell) opts.length
        prgm_opts prgm_optsc
      = ⟨(launch_jvm_in_proc.resolve w java_dl jli_dl).trace
          ++ [.createJavaVM true opts.length (opts.map vm_option), .FindClass (.str name)],
         .error (.raise .E_ARGUMENT_ERROR name)⟩ ∧
    (launch_jvm_in_proc w java_dl jli_dl (.str name) (opts.map cell) opts.length
        prgm_opts prgm_optsc).trace.all (fun e => !e.main_lookup_or_call) = true ∧
    Stop.raise .E_ARGUMENT_ERROR name ≠ JVM_creation_failed ∧
    (name ≠ "Cannot get main method." →
      Stop.raise .E_ARGUMENT_ERROR name ≠ cannot_get_main_method) ∧
    (name ≠ "NewStringUTF() failed" →
      Stop.raise .E_ARGUMENT_ERROR name ≠ NewStringUTF_failed) := by
  have hrun := launch_jvm_in_proc_vm_created w java_dl jli_dl (.str name) opts prgm_opts
    prgm_optsc hopts hres hvm
  have hmain : launch_jvm_in_proc.run_main w (.str name) prgm_opts prgm_optsc
      = ⟨[.FindClass (.str name)], .error (.raise .E_ARGUMENT_ERROR name)⟩ := by
    simp [launch_jvm_in_proc.run_main, hfc, mrb_raise, stop, emit]
  have hfull : launch_jvm_in_proc w java_dl jli_dl (.str name) (opts.map cell) opts.length
        prgm_opts prgm_optsc
      = ⟨(launch_jvm_in_proc.resolve w java_dl jli_dl).trace
          ++ [.createJavaVM true opts.length (opts.map vm_option), .FindClass (.str name)],
         .error (.raise .E_ARGUMENT_ERROR name)⟩ := by
    rw [hrun, hmain]
    simp
  obtain ⟨t, r, hr, ht⟩ := resolve_returns w java_dl jli_dl
  refine ⟨hfull, ?_, ?_, ?_, ?_⟩
  · rw [hfull, hr]
    simp only [List.all_append, Bool.and_eq_true]
    refine ⟨?_, by simp [Event.main_lookup_or_call]⟩
    rw [List.all_eq_true] at ht ⊢
    intro e he
    have := ht e he
    cases e <;> simp_all [Event.loads_library, Event.main_lookup_or_call]
  · simp [JVM_creation_failed]
  · intro h
    simpa [cannot_get_main_method] using h
  · intro h
    simpa [NewStringUTF_failed] using h

/-- A witness for the amended C8: the class `Missing` on a machine whose JVM
only knows `Main`. -/
theorem launch_jvm_in_proc_class_not_found_witness :
    (launch_jvm_in_proc jvmLinux (.str "libjvm.so") (.str "") (.str "Missing")
        (["-Xmx1g"].map cell) (["-Xmx1g"] : List String).length [] 0).out
      = .error (.raise .E_ARGUMENT_ERROR "Missing") :=
  congrArg Res.out
    (launch_jvm_in_proc_class_not_found jvmLinux (.str "libjvm.so") (.str "") "Missing"
      ["-Xmx1g"] [] 0 (by decide) rfl (by decide) rfl).1

/-- C8 as stated fails. With the main class name `Cannot get main method.`,
which `FindClass` does not resolve, the class resolution failure raises
exactly the error that the method resolution failure raises (here for the
class `Main`, which resolves and has no `main`). -/
theorem class_error_equals_method_error :
    jvmLinux.FindClass (.str "Cannot get main method.") = none ∧
    (launch_jvm_in_proc jvmLinux (.str "libjvm.so") (.str "") (.str "Cannot get main method.")
        [] 0 [] 0).out = .error cannot_get_main_method ∧
    jvmLinux.FindClass (.str "Main") = some 1 ∧
    (launch_jvm_in_proc jvmLinux (.str "libjvm.so") (.str "") (.str "Main")
        [] 0 [] 0).out = .error cannot_get_main_method := by
  refine ⟨rfl, rfl, rfl, rfl⟩

/-! ## The value returned to the host -/

/-- Whenever `mrb_launch_jvm` returns to the host, with either flag, the
value is `true`: the value of `mrb_p_exec` is not used. -/
theorem mrb_launch_jvm_returns_true (w : World) (in_proc : Int) (argv : List mrb_value)
    (v : mrb_value) (h : (mrb_launch_jvm w in_proc argv).out = .ok v) : v = .true_value := by
  simp only [mrb_launch_jvm, Res.bind_eq, Res.pure_eq] at h
  cases hl : mrb_launch_jvm.locals w argv with
  | mk t o =>
    cases o with
    | error e => simp [hl, Res.andThen] at h
    | ok l =>
      simp only [hl, Res.mk_ok_andThen] at h
      split at h
      · cases hx : launch_jvm_out_of_proc w l.java_exe l.java_main_class l.java_opts
            l.java_optsc l.prgm_opts l.prgm_optsc with
        | mk t1 o1 =>
          cases o1 with
          | error e => simp [hx, Res.andThen] at h
          | ok u =>
            simp [hx, Res.andThen, Res.ret] at h
            exact h.symm
      · cases hx : launch_jvm_in_proc w l.java_dl l.jli_dl l.java_main_class l.java_opts
            l.java_optsc l.prgm_opts l.prgm_optsc with
        | mk t1 o1 =>
          cases o1 with
          | error e => simp [hx, Res.andThen] at h
          | ok u =>
            simp [hx, Res.andThen, Res.ret] at h
            exact h.symm

/-- C3 fails on the code. On a machine where `execv` of the executable fails,
`mrb_p_exec` computes `false` for the vector built from `sample_args`, and
`_system_java_` on `sample_args` makes that `execv` call and returns `true` to
the host. -/
theorem system_java_true_after_failed_exec :
    bareLinux.execv (cell "/nonexistent/java") sample_pargv = false ∧
    (mrb_p_exec bareLinux sample_pargv 6).out = .ok .false_value ∧
    (mrb_java_support_system bareLinux sample_args).trace.contains
      (.execv (cell "/nonexistent/java") sample_pargv) = true ∧
    (mrb_java_support_system bareLinux sample_args).out = .ok .true_value := by
  refine ⟨rfl, rfl, by decide, rfl⟩

/-! ## The dispatch on the flag -/

/-- The launch that each flag value runs after the marshalling. -/
theorem mrb_launch_jvm_dispatch (w : World) (in_proc : Int) (argv : List mrb_value) :
    (in_proc ≠ 0 →
      mrb_launch_jvm w in_proc argv
        = Res.andThen (mrb_launch_jvm.locals w argv) fun l =>
            Res.andThen (launch_jvm_out_of_proc w l.java_exe l.java_main_class l.java_opts
              l.java_optsc l.prgm_opts l.prgm_optsc) fun _ => Res.ret .true_value) ∧
    (in_proc = 0 →
      mrb_launch_jvm w in_proc argv
        = Res.andThen (mrb_launch_jvm.locals w argv) fun l =>
            Res.andThen (launch_jvm_in_proc w l.java_dl l.jli_dl l.java_main_class l.java_opts
              l.java_optsc l.prgm_opts l.prgm_optsc) fun _ => Res.ret .true_value) := by
  constructor
  · intro h
    simp [mrb_launch_jvm, h]
  · intro h
    simp [mrb_launch_jvm, h]

/-- C10 fails on the code. On `sample_args`, `mrb_launch_jvm` with `in_proc = 1`
makes the `execv` call of the out-of-process launch and no loader or JNI
call; with `in_proc = 0` it makes the loader calls of the in-process launch
and creates no process. -/
theorem in_proc_flag_runs_out_of_process :
    (mrb_launch_jvm bareLinux 1 sample_args).trace.any Event.out_of_process = true ∧
    (mrb_launch_jvm bareLinux 1 sample_args).trace.any Event.in_process = false ∧
    (mrb_launch_jvm bareLinux 0 sample_args).trace.any Event.in_process = true ∧
    (mrb_launch_jvm bareLinux 0 sample_args).trace.any Event.out_of_process = false := by
  refine ⟨by decide, by decide, by decide, by decide⟩

/-! ## Location discovery -/

/-- Reading back a string written in front of a NUL. -/
theorem read_cstr_written (data : List Char) (rest : List (Option Char))
    (h : ∀ c ∈ data, c ≠ Char.ofNat 0) :
    read_cstr (data.map some ++ some (Char.ofNat 0) :: rest) = Res.ret data := by
  induction data with
  | nil => simp [read_cstr]
  | cons c cs ih =>
    have hc : c ≠ Char.ofNat 0 := h c (by simp)
    have := ih (fun d hd => h d (by simp [hd]))
    simp [read_cstr, hc, this]

/-- When `readlink` fails, the terminator is written at index -1, before the
start of `buff`, for every value of `PATH_MAX`. -/
theorem mrb_find_native_java_readlink_failure (w : World) (hp : w.platform = .other)
    (hr : w.readlink "/usr/bin/java" = none) :
    mrb_find_native_java w
      = ⟨[.readlink "/usr/bin/java" ((w.PATH_MAX : Int) - 1)],
         .error (.undefined "write before the start of an array")⟩ := by
  simp [mrb_find_native_java, hp, hr, store, stop, emit]

/-- When `readlink` succeeds, the result is the link target cut to
`PATH_MAX - 1` bytes. -/
theorem mrb_find_native_java_readlink_success (w : World) (hp : w.platform = .other)
    (target : List Char) (hr : w.readlink "/usr/bin/java" = some target)
    (hnul : ∀ c ∈ target, c ≠ Char.ofNat 0) (hmax : 0 < w.PATH_MAX) :
    mrb_find_native_java w
      = ⟨[.readlink "/usr/bin/java" ((w.PATH_MAX : Int) - 1), .mrb_str_new_cstr],
         .ok (.str (String.mk (target.take (w.PATH_MAX - 1))))⟩ := by
  have hlen : (target.take (w.PATH_MAX - 1)).length < w.PATH_MAX := by
    simp only [List.length_take]
    omega
  obtain ⟨m, hm⟩ : ∃ m, w.PATH_MAX - (target.take (w.PATH_MAX - 1)).length = m + 1 :=
    ⟨w.PATH_MAX - (target.take (w.PATH_MAX - 1)).length - 1, by omega⟩
  have hbuf : write_bytes (List.replicate w.PATH_MAX none) (target.take (w.PATH_MAX - 1))
      = (target.take (w.PATH_MAX - 1)).map some ++ none :: List.replicate m none := by
    simp only [write_bytes, List.drop_replicate, hm, List.replicate_succ]
  have hstore : store ((target.take (w.PATH_MAX - 1)).map some ++ none :: List.replicate m none)
        (((target.take (w.PATH_MAX - 1)).length : Nat) : Int) (some (Char.ofNat 0))
      = Res.ret ((target.take (w.PATH_MAX - 1)).map some
          ++ some (Char.ofNat 0) :: List.replicate m none) :=
    store_at_length _ _ none _ _ (by simp)
  have hread := read_cstr_written (target.take (w.PATH_MAX - 1)) (List.replicate m none)
    (fun c hc => hnul c (List.mem_of_mem_take hc))
  simp only [mrb_find_native_java, hp, hr, hbuf, hstore, Res.bind_eq, Res.emit_andThen,
    Res.ret_andThen, mrb_str_new_cstr_buff, hread, Res.pure_eq]
  rfl

/-- C9 fails on the code. On a Linux machine where `/usr/bin/java` cannot be
resolved, `mrb_find_native_java` writes the terminator before the start of
`buff` (index -1, outside `0 .. PATH_MAX - 1`) and returns no empty string. -/
theorem mrb_find_native_java_writes_before_buff :
    bareLinux.readlink "/usr/bin/java" = none ∧
    mrb_find_native_java bareLinux
      = ⟨[.readlink "/usr/bin/java" 4095],
         .error (.undefined "write before the start of an array")⟩ ∧
    (mrb_find_native_java bareLinux).out ≠ .ok (.str "") := by
  have h := mrb_find_native_java_readlink_failure bareLinux rfl rfl
  refine ⟨rfl, h, ?_⟩
  rw [h]
  simp

end JavaSupport
